import Mathlib

/-!
# Verification development for the arena_watcher change-detection core

Shallow embedding of the change-detection / state-reconciliation engine of
the `arena_watcher` repository, together with theorems settling the frozen
claims about its specification.

Embedded code (from `src/arena_watcher/`):
* `telegram_bot.py`: `_apply_removal_waitlist`, `_snapshot_model`,
  `_capability_lists`, `_truthy_capability_keys`, `_diff_capabilities`,
  `_capability_changes`, and the reconciliation cycle `_poll_arena`.
* `state_store.py`: `TrackedModel.from_json`, `WatcherState.from_json`,
  `_normalize_capability_list`, `StateStore.load`.

Python `dict`s are modelled as association lists (first-match lookup; an
in-place update replaces the first matching entry, a fresh key is appended,
mirroring Python insertion-order semantics).  `time.time()` timestamps and
the `removal_waitlist_seconds` grace period are modelled as integers: no
claim depends on fractional seconds, only on differences and comparisons.
-/

namespace ArenaWatcher

/-- A Python `dict` keyed by `str`, as an association list with first-match
lookup. -/
abbrev Dict (α : Type) : Type := List (String × α)

namespace Dict

/-- `d[k]` / `d.get(k)`: first entry whose key is `k`. -/
def find : Dict α → String → Option α
  | [], _ => none
  | p :: rest, k => if p.1 = k then some p.2 else find rest k

/-- Python `k in d`. -/
def contains (d : Dict α) (k : String) : Bool :=
  (find d k).isSome

/-- Python `d[k] = v`: replace the first entry with key `k`, or append. -/
def insert : Dict α → String → α → Dict α
  | [], k, v => [(k, v)]
  | p :: rest, k, v => if p.1 = k then (k, v) :: rest else p :: insert rest k v

/-- Python `d.pop(k, None)`: drop every entry with key `k`. -/
def erase : Dict α → String → Dict α
  | [], _ => []
  | p :: rest, k => if p.1 = k then erase rest k else p :: erase rest k

/-- Python `list(d)` / `set(d)`: the keys, in insertion order. -/
def keys (d : Dict α) : List String :=
  d.map Prod.fst

/-- Python dict equality (`d1 != d2` in the source): same keys mapped to the
same values, insertion order ignored. -/
def beqv [DecidableEq α] (a b : Dict α) : Bool :=
  a.all (fun p => decide (find b p.1 = some p.2)) &&
    b.all (fun p => decide (find a p.1 = some p.2))

end Dict

/-- Python `set(a) - set(b)` on dict key sets. -/
def keysNotIn (a : Dict α) (b : Dict β) : List String :=
  (Dict.keys a).filter (fun k => !Dict.contains b k)

/-- Registry record for one tracked model (`state_store.TrackedModel`).

The copy of `state_store.py` under `src/` predates `telegram_bot.py`, which
reads and writes a `tag` field on this record (`_snapshot_model`,
`_handle_tag`).  Modelled from the spec: the `tag` field — "mutable
annotation (`tag`) ... mutated only ... by an administrative command" — is
included here because the reconciliation code requires it; its declaration
is missing from the `src/` snapshot of `state_store.py`. -/
structure TrackedModel where
  name : String
  inputCapabilities : Option (List String) := none
  outputCapabilities : Option (List String) := none
  tag : Option String := none
deriving DecidableEq, Repr

/-- Per-source removal waitlist: identifier ↦ timestamp first found missing. -/
abbrev Waitlist : Type := Dict Int

/-- Result of `_apply_removal_waitlist`.  The Python method returns the
four-tuple `(effective_snapshots, added_ids, removed_ids, waitlist_updated)`
and writes the new per-source waitlist into
`self._state.removal_waitlist[source_key]`; `newWaitlist` records that write
(`none` = the source key is absent from the state mapping). -/
structure DebounceResult where
  effective : Dict TrackedModel
  addedIds : List String
  removedIds : List String
  waitlistUpdated : Bool
  newWaitlist : Option Waitlist
deriving DecidableEq, Repr

/-- Whether a per-source waitlist slot (`none` = key absent from
`removal_waitlist`) holds `id`. -/
def waitlistContains : Option Waitlist → String → Bool
  | some wl, id => Dict.contains wl id
  | none, _ => false

/-- Whether the debounced state still holds `id` on the per-source waitlist. -/
def DebounceResult.onWaitlist (r : DebounceResult) (id : String) : Bool :=
  waitlistContains r.newWaitlist id

/-- `telegram_bot._apply_removal_waitlist`, first loop: identifiers present
in the raw snapshot are cleared from the waitlist. -/
def clearLiveEntries (api : Dict TrackedModel) :
    List (String × Int) → Waitlist → Bool → Waitlist × Bool
  | [], wl, wu => (wl, wu)
  | (k, _) :: rest, wl, wu =>
    if Dict.contains api k then
      clearLiveEntries api rest (Dict.erase wl k) true
    else
      clearLiveEntries api rest wl wu

/-- `_apply_removal_waitlist`, deferral branch (zero additions, some
removals): carry each removed identifier forward from `previous` into the
effective snapshot and enqueue it on the waitlist if not already there. -/
def deferRemovals (now : Int) (previous : Dict TrackedModel) :
    List String → Dict TrackedModel → Waitlist → Bool →
      Dict TrackedModel × Waitlist × Bool
  | [], eff, wl, wu => (eff, wl, wu)
  | k :: rest, eff, wl, wu =>
    let eff2 := match Dict.find previous k with
      | some m => Dict.insert eff k m
      | none => eff
    if Dict.contains wl k then
      deferRemovals now previous rest eff2 wl wu
    else
      deferRemovals now previous rest eff2 (Dict.insert wl k now) true

/-- `_apply_removal_waitlist`, non-deferral branch: removed identifiers are
dropped from the waitlist (the raw result also contained additions, so the
removals are trusted). -/
def dropRemovedFromWaitlist :
    List String → Waitlist → Bool → Waitlist × Bool
  | [], wl, wu => (wl, wu)
  | k :: rest, wl, wu =>
    if Dict.contains wl k then
      dropRemovedFromWaitlist rest (Dict.erase wl k) true
    else
      dropRemovedFromWaitlist rest wl wu

/-- `_apply_removal_waitlist`, expiry loop: waitlisted identifiers still
absent from the raw snapshot whose grace period has elapsed are dropped from
both the waitlist and the effective snapshot. -/
def expireEntries (waitlistSeconds now : Int) (api : Dict TrackedModel) :
    List (String × Int) → Waitlist → Dict TrackedModel → Bool →
      Waitlist × Dict TrackedModel × Bool
  | [], wl, eff, wu => (wl, eff, wu)
  | (k, ts) :: rest, wl, eff, wu =>
    if Dict.contains api k then
      expireEntries waitlistSeconds now api rest wl eff wu
    else if waitlistSeconds ≤ now - ts then
      expireEntries waitlistSeconds now api rest
        (Dict.erase wl k) (Dict.erase eff k) true
    else
      expireEntries waitlistSeconds now api rest wl eff wu

/-- The mutating middle of `_apply_removal_waitlist` when debouncing is
active (`waitlist_seconds > 0`): clear reappeared identifiers from the
waitlist, then either defer every removal (zero additions) or trust the
removals and drop them from the waitlist, then expire overdue waitlist
entries.  Returns `(waitlist, effective_snapshots, waitlist_updated)`. -/
def debounceCore (waitlistSeconds now : Int) (existing : Option Waitlist)
    (previous api : Dict TrackedModel) :
    Waitlist × Dict TrackedModel × Bool :=
  let apiAddedIds := keysNotIn api previous
  let apiRemovedIds := keysNotIn previous api
  let wl0 := existing.getD []
  let s1 := clearLiveEntries api wl0 wl0 false
  let s2 :=
    if !apiRemovedIds.isEmpty && apiAddedIds.isEmpty then
      deferRemovals now previous apiRemovedIds api s1.1 s1.2
    else
      let d := dropRemovedFromWaitlist apiRemovedIds s1.1 s1.2
      (api, d.1, d.2)
  expireEntries waitlistSeconds now api s2.2.1 s2.2.1 s2.1 s2.2.2

/-- The tail of `_apply_removal_waitlist`: write the surviving waitlist back
into `self._state.removal_waitlist[source_key]` if it is non-empty and its
content changed, or pop the (truthy) stale entry.  Returns the stored
per-source waitlist and the accumulated `waitlist_updated` flag. -/
def storeWaitlist (existing : Option Waitlist) (wl3 : Waitlist)
    (wu : Bool) : Option Waitlist × Bool :=
  if !wl3.isEmpty then
    if !Dict.beqv wl3 (existing.getD []) then (some wl3, true)
    else (existing, wu)
  else
    match existing with
    | some e => if !e.isEmpty then (none, true) else (existing, wu)
    | none => (none, wu)

/-- `telegram_bot._apply_removal_waitlist`.  `waitlistSeconds` models
`self._config.removal_waitlist_seconds` (the grace period; the field is
read by `telegram_bot.py` but its declaration is missing from the `src/`
snapshot of `config.py`), `existing` the entry
`self._state.removal_waitlist.get(source_key)`.  The corrupt-state parsing
branches of the Python code (non-`dict` waitlist value, timestamps that do
not coerce to `float`) are identities on well-typed state and are not
reachable in this typed model. -/
def applyRemovalWaitlist (waitlistSeconds now : Int)
    (existing : Option Waitlist)
    (previous api : Dict TrackedModel) : DebounceResult :=
  if waitlistSeconds ≤ 0 then
    { effective := api, addedIds := keysNotIn api previous,
      removedIds := keysNotIn previous api,
      waitlistUpdated := existing.isSome, newWaitlist := none }
  else
    let s3 := debounceCore waitlistSeconds now existing previous api
    let final := storeWaitlist existing s3.1 s3.2.2
    { effective := s3.2.1,
      addedIds := keysNotIn s3.2.1 previous,
      removedIds := keysNotIn previous s3.2.1,
      waitlistUpdated := final.2,
      newWaitlist := final.1 }

/-- A JSON value, as produced by Python `json.loads`.  Numbers are modelled
as integers: no claim involves fractional numeric data. -/
inductive Json where
  | null : Json
  | bool (b : Bool) : Json
  | num (n : Int) : Json
  | str (s : String) : Json
  | arr (xs : List Json) : Json
  | obj (fields : List (String × Json)) : Json

/-- Python truthiness (`if value:`) of a parsed JSON value. -/
def Json.truthy : Json → Bool
  | Json.null => false
  | Json.bool b => b
  | Json.num n => n != 0
  | Json.str s => !s.isEmpty
  | Json.arr xs => !xs.isEmpty
  | Json.obj fs => !fs.isEmpty

mutual

/-- Python `str()` applied to a parsed JSON value.  Scalar cases are exact;
the rendering of nested containers is an approximation of Python `repr`
(string quoting omitted) — no claim depends on it. -/
def pyStr : Json → String
  | Json.null => "None"
  | Json.bool true => "True"
  | Json.bool false => "False"
  | Json.num n => toString n
  | Json.str s => s
  | Json.arr xs => "[" ++ String.intercalate ", " (pyStrList xs) ++ "]"
  | Json.obj fs => "\x7b" ++ String.intercalate ", " (pyStrFields fs) ++ "\x7d"

def pyStrList : List Json → List String
  | [] => []
  | x :: rest => pyStr x :: pyStrList rest

def pyStrFields : List (String × Json) → List String
  | [] => []
  | p :: rest => (p.1 ++ ": " ++ pyStr p.2) :: pyStrFields rest

end

/-- `arena_client.ModelEntry`: one normalized entry from a fetch adapter.
No `tag` field exists here — adapters never supply tags. -/
structure ModelEntry where
  identifier : String
  name : String
  raw : Json

/-- `telegram_bot._truthy_capability_keys`: the keys of a capability node
whose values are truthy; `[]` for anything that is not a dict (including a
missing node, modelled as `none`). -/
def truthyCapabilityKeys : Option Json → List String
  | some (Json.obj fields) =>
    fields.filterMap (fun p => if Json.truthy p.2 then some p.1 else none)
  | _ => []

/-- `telegram_bot._capability_lists`: extract the truthy input/output
capability keys from `entry.raw["capabilities"]`, or `(None, None)` when the
raw payload carries no capability dict. -/
def capabilityLists (entry : ModelEntry) :
    Option (List String) × Option (List String) :=
  match entry.raw with
  | Json.obj fields =>
    match Dict.find fields "capabilities" with
    | some (Json.obj caps) =>
      (some (truthyCapabilityKeys (Dict.find caps "inputCapabilities")),
        some (truthyCapabilityKeys (Dict.find caps "outputCapabilities")))
    | _ => (none, none)
  | _ => (none, none)

/-- `telegram_bot._snapshot_model`: normalize a fresh fetch entry into a
registry record, carrying the `tag` over from the previous record with the
same identifier (never from the adapter). -/
def snapshotModel (entry : ModelEntry) (existing : Option TrackedModel) :
    TrackedModel :=
  let caps := capabilityLists entry
  { name := entry.name,
    inputCapabilities := caps.1,
    outputCapabilities := caps.2,
    tag := match existing with
      | some m => m.tag
      | none => none }

/-- Stable insertion of `x` into `l` (after any elements `y` with
`le y x`). -/
def insertSorted (le : α → α → Bool) (x : α) : List α → List α
  | [] => [x]
  | y :: rest =>
    if le y x then y :: insertSorted le x rest else x :: y :: rest

/-- Python `sorted(l, key=...)`: a stable sort by `le`. -/
def sortBy (le : α → α → Bool) : List α → List α
  | [] => []
  | x :: rest => insertSorted le x (sortBy le rest)

/-- Python `sorted(set)`: sorted list of the distinct elements. -/
def sortedStringSet (l : List String) : List String :=
  sortBy (fun a b => decide (a ≤ b)) l.dedup

/-- `telegram_bot._diff_capabilities`: `set(previous or [])` versus
`set(current or [])`; note that `None` is coalesced to the empty list by
`or []` before the set difference is taken. -/
def diffCapabilities (previous current : Option (List String)) :
    List String × List String :=
  let prevSet := (previous.getD []).dedup
  let currSet := (current.getD []).dedup
  let added := sortedStringSet (currSet.filter (fun c => !prevSet.contains c))
  let removed := sortedStringSet (prevSet.filter (fun c => !currSet.contains c))
  (added, removed)

/-- `telegram_bot.CapabilityDiff`. -/
structure CapabilityDiff where
  identifier : String
  model : TrackedModel
  inputAdded : List String
  inputRemoved : List String
  outputAdded : List String
  outputRemoved : List String
deriving DecidableEq, Repr

/-- `CapabilityDiff.has_changes`. -/
def CapabilityDiff.hasChanges (d : CapabilityDiff) : Bool :=
  !d.inputAdded.isEmpty || !d.inputRemoved.isEmpty ||
    !d.outputAdded.isEmpty || !d.outputRemoved.isEmpty

/-- `telegram_bot._capability_changes`. -/
def capabilityChanges (identifier : String) (before after : TrackedModel) :
    CapabilityDiff :=
  let input := diffCapabilities before.inputCapabilities after.inputCapabilities
  let output := diffCapabilities before.outputCapabilities after.outputCapabilities
  { identifier := identifier,
    model := after,
    inputAdded := input.1,
    inputRemoved := input.2,
    outputAdded := output.1,
    outputRemoved := output.2 }

/-- The arena slice of the persisted bot state: `known_models`, the
`"arena"` entry of `removal_waitlist`, and the subscriber chat set.
Modelled from the spec: the runtime `WatcherState` with its
`removal_waitlist` mapping is read and written by `telegram_bot.py` but its
declaration is missing from the `src/` snapshot of `state_store.py`
("durable key-value persistence of the last-known entry set per source,
plus a set of subscriber identities and a per-source removal waitlist"). -/
structure ArenaState where
  models : Dict TrackedModel
  removalWaitlist : Option Waitlist
  chats : List Int
deriving DecidableEq, Repr

/-- Everything one `_poll_arena` cycle computes and effects: the state after
the cycle, whether `self._store.save` ran, which chats `_notify_changes`
sent the diff report to, and the change sets of the cycle. -/
structure PollOutcome where
  state : ArenaState
  persisted : Bool
  notifiedChats : List Int
  addedIds : List String
  removedIds : List String
  capabilityUpdates : List CapabilityDiff
  nameUpdates : List (String × String × TrackedModel)
  waitlistUpdated : Bool
deriving DecidableEq, Repr

/-- The dict comprehension in `_poll_arena`:
`{entry.identifier: self._snapshot_model(entry, previous.get(entry.identifier)) for entry in models}`. -/
def buildApiSnapshots (previous : Dict TrackedModel)
    (models : List ModelEntry) : Dict TrackedModel :=
  models.foldl
    (fun acc e =>
      Dict.insert acc e.identifier
        (snapshotModel e (Dict.find previous e.identifier)))
    []

/-- Python `set(previous).intersection(snapshots)` in `_poll_arena`. -/
def overlappingIds (previous effective : Dict TrackedModel) : List String :=
  (Dict.keys previous).filter (fun k => Dict.contains effective k)

/-- The capability-update loop of `_poll_arena`: for each identifier in both
snapshots, the `CapabilityDiff` between its records when it has changes. -/
def arenaCapabilityUpdates (previous effective : Dict TrackedModel) :
    List CapabilityDiff :=
  (overlappingIds previous effective).filterMap (fun k =>
    match Dict.find previous k, Dict.find effective k with
    | some b, some a =>
      let d := capabilityChanges k b a
      if d.hasChanges then some d else none
    | _, _ => none)

/-- The name-update loop of `_poll_arena`: `(identifier, before_name,
after_model)` for each overlapping identifier whose name changed. -/
def arenaNameUpdates (previous effective : Dict TrackedModel) :
    List (String × String × TrackedModel) :=
  (overlappingIds previous effective).filterMap (fun k =>
    match Dict.find previous k, Dict.find effective k with
    | some b, some a =>
      if b.name ≠ a.name then some (k, b.name, a) else none
    | _, _ => none)

/-- The body of `telegram_bot._poll_arena` after a successful fetch:
normalize → debounce → diff → (persist and notify unless nothing changed).
The in-memory `self._last_snapshot` cache is not part of the stored state
and is not modelled; `_notify_changes` delivery failures to individual
chats are external effects outside the model. -/
def pollCycle (waitlistSeconds now : Int) (st : ArenaState)
    (models : List ModelEntry) : PollOutcome :=
  let previous := st.models
  let apiSnapshots := buildApiSnapshots previous models
  let r := applyRemovalWaitlist waitlistSeconds now st.removalWaitlist
    previous apiSnapshots
  let capabilityUpdates := arenaCapabilityUpdates previous r.effective
  let nameUpdates := arenaNameUpdates previous r.effective
  if r.addedIds.isEmpty && r.removedIds.isEmpty && capabilityUpdates.isEmpty
      && nameUpdates.isEmpty && !r.waitlistUpdated then
    { state := st, persisted := false, notifiedChats := [],
      addedIds := r.addedIds, removedIds := r.removedIds,
      capabilityUpdates := capabilityUpdates, nameUpdates := nameUpdates,
      waitlistUpdated := r.waitlistUpdated }
  else
    let addedModels := sortBy
      (fun a b => decide (a.name.toLower ≤ b.name.toLower))
      (r.addedIds.filterMap (fun k => Dict.find r.effective k))
    let removedModels := sortBy
      (fun a b => decide (a.2.name.toLower ≤ b.2.name.toLower))
      (r.removedIds.filterMap (fun k =>
        (Dict.find previous k).map (fun m => (k, m))))
    let state2 : ArenaState :=
      { models := r.effective, removalWaitlist := r.newWaitlist,
        chats := st.chats }
    let doNotify := !addedModels.isEmpty || !removedModels.isEmpty ||
      !capabilityUpdates.isEmpty || !nameUpdates.isEmpty
    { state := state2, persisted := true,
      notifiedChats := if doNotify then st.chats else [],
      addedIds := r.addedIds, removedIds := r.removedIds,
      capabilityUpdates := capabilityUpdates, nameUpdates := nameUpdates,
      waitlistUpdated := r.waitlistUpdated }

/-- `telegram_bot._poll_arena`: a fetch failure (`ArenaFetchError`) is
logged and the cycle returns with no state mutation; a successful fetch
(possibly empty) runs the full cycle. -/
def pollArena (waitlistSeconds now : Int) (st : ArenaState)
    (fetched : Except Unit (List ModelEntry)) : PollOutcome :=
  match fetched with
  | Except.error _ =>
    { state := st, persisted := false, notifiedChats := [], addedIds := [],
      removedIds := [], capabilityUpdates := [], nameUpdates := [],
      waitlistUpdated := false }
  | Except.ok models => pollCycle waitlistSeconds now st models

/-- `state_store._normalize_capability_list`: `None` stays `None`, a list
keeps its non-empty string items, anything else becomes `None`.  The input
is the raw field value; a missing field (`data.get` returning `None`) is
passed as `Json.null`. -/
def normalizeCapabilityList : Json → Option (List String)
  | Json.null => none
  | Json.arr xs => some (xs.filterMap (fun x =>
      match x with
      | Json.str s => if s.isEmpty then none else some s
      | _ => none))
  | _ => none

/-- `state_store.TrackedModel.from_json`.  Total: a non-dict payload yields
`TrackedModel(name=str(data))`.  The `src/` copy of `state_store.py` has no
`tag` field, so loading always yields `tag := none`. -/
def TrackedModel.fromJson : Json → TrackedModel
  | Json.obj fields =>
    let nameVal := (Dict.find fields "name").getD Json.null
    { name := if Json.truthy nameVal then pyStr nameVal else "unknown",
      inputCapabilities :=
        normalizeCapabilityList ((Dict.find fields "input_capabilities").getD Json.null),
      outputCapabilities :=
        normalizeCapabilityList ((Dict.find fields "output_capabilities").getD Json.null),
      tag := none }
  | other =>
    { name := pyStr other, inputCapabilities := none,
      outputCapabilities := none, tag := none }

/-- `WatcherState.from_json`, `known_models` field: a dict of payloads, a
legacy list of identifiers, or anything else (→ empty). -/
def parseModelMap : Json → Dict TrackedModel
  | Json.obj fs =>
    fs.foldl (fun acc p => Dict.insert acc p.1 (TrackedModel.fromJson p.2)) []
  | Json.arr xs =>
    xs.foldl (fun acc x =>
      Dict.insert acc (pyStr x)
        { name := pyStr x, inputCapabilities := none,
          outputCapabilities := none, tag := none }) []
  | _ => []

/-- `WatcherState.from_json`, `google_models` field: a dict of payloads or
anything else (→ empty); no legacy list form. -/
def parseModelDict : Json → Dict TrackedModel
  | Json.obj fs =>
    fs.foldl (fun acc p => Dict.insert acc p.1 (TrackedModel.fromJson p.2)) []
  | _ => []

/-- Python `int(x)` on a parsed JSON value: exact on integers and booleans,
string parsing via `toInt?`; `None`, lists and dicts raise `TypeError`,
unparsable strings raise `ValueError`. -/
def pyInt : Json → Except String Int
  | Json.num n => Except.ok n
  | Json.bool b => Except.ok (if b then 1 else 0)
  | Json.str s =>
    match s.trim.toInt? with
    | some n => Except.ok n
    | none => Except.error "ValueError"
  | _ => Except.error "TypeError"

/-- `set(int(chat) for chat in v)`: Python iteration of the `chats` value.
Lists iterate their elements, strings their characters, dicts their keys;
every other value raises `TypeError`, and each element goes through
`int(...)`. -/
def iterateForInts : Json → Except String (List Int)
  | Json.arr xs => xs.mapM pyInt
  | Json.str s =>
    (s.toList.map (fun c => Json.str (String.singleton c))).mapM pyInt
  | Json.obj fs => fs.mapM (fun p => pyInt (Json.str p.1))
  | _ => Except.error "TypeError"

/-- `state_store.WatcherState` as persisted by the `src/` copy of
`state_store.py`: registry, Google registry and subscriber chat set. -/
structure WatcherState where
  knownModels : Dict TrackedModel
  googleModels : Dict TrackedModel
  chats : List Int
deriving DecidableEq, Repr

/-- `WatcherState()`: the empty state. -/
def WatcherState.empty : WatcherState :=
  { knownModels := [], googleModels := [], chats := [] }

/-- `state_store.WatcherState.from_json`.  An `Except.error` result models
an uncaught Python exception: `AttributeError` when the document is not an
object (`data.get` on a non-dict), and `TypeError`/`ValueError` escaping
from the `chats` generator.  `data.get(k, default)` with a JSON `null`
value and with a missing key both behave as the Python `None`/default. -/
def WatcherState.fromJson : Json → Except String WatcherState
  | Json.obj fields =>
    let knownModels :=
      parseModelMap ((Dict.find fields "known_models").getD (Json.obj []))
    let googleModels :=
      parseModelDict ((Dict.find fields "google_models").getD (Json.obj []))
    match iterateForInts ((Dict.find fields "chats").getD (Json.arr [])) with
    | Except.ok ints =>
      Except.ok
        { knownModels := knownModels, googleModels := googleModels,
          chats := ints.dedup }
    | Except.error e => Except.error e
  | _ => Except.error "AttributeError"

/-- `state_store.StateStore.load`.  The argument models the persisted
document: `none` when no state file exists, `some (Except.error _)` when
reading or JSON-decoding fails (`OSError`/`JSONDecodeError`, both caught),
`some (Except.ok j)` for a successfully parsed document `j`.  The
`WatcherState.from_json` call sits outside the `try` block, so an error it
raises escapes `load`. -/
def load (document : Option (Except String Json)) :
    Except String WatcherState :=
  match document with
  | none => Except.ok WatcherState.empty
  | some (Except.error _) => Except.ok WatcherState.empty
  | some (Except.ok j) => WatcherState.fromJson j

/-! ## Dictionary lemmas -/

theorem Dict.find_mem {d : Dict α} {k : String} {v : α}
    (h : Dict.find d k = some v) : (k, v) ∈ d := by
  induction d with
  | nil => simp [Dict.find] at h
  | cons p rest ih =>
    rw [Dict.find] at h
    by_cases hk : p.1 = k
    · rw [if_pos hk] at h
      obtain ⟨pk, pv⟩ := p
      cases hk
      cases Option.some.inj h
      exact List.mem_cons_self _ _
    · rw [if_neg hk] at h
      exact List.mem_cons_of_mem _ (ih h)

theorem Dict.mem_keys_of_find {d : Dict α} {k : String} {v : α}
    (h : Dict.find d k = some v) : k ∈ Dict.keys d := by
  exact List.mem_map.mpr ⟨(k, v), Dict.find_mem h, rfl⟩

theorem Dict.contains_of_mem_keys {d : Dict α} {k : String}
    (h : k ∈ Dict.keys d) : Dict.contains d k = true := by
  induction d with
  | nil => simp [Dict.keys] at h
  | cons p rest ih =>
    by_cases hk : p.1 = k
    · simp [Dict.contains, Dict.find, hk]
    · simp [Dict.keys, hk] at h
      rcases h with h | h
      · exact absurd h.symm hk
      · have := ih (by simpa [Dict.keys] using h)
        simpa [Dict.contains, Dict.find, hk] using this

theorem Dict.not_mem_keys {d : Dict α} {k : String}
    (h : Dict.contains d k = false) : k ∉ Dict.keys d := by
  intro hmem
  rw [Dict.contains_of_mem_keys hmem] at h
  exact Bool.noConfusion h

theorem Dict.find_insert_ne {d : Dict α} {k k2 : String} {v : α}
    (h : k ≠ k2) : Dict.find (Dict.insert d k v) k2 = Dict.find d k2 := by
  induction d with
  | nil => simp [Dict.insert, Dict.find, h]
  | cons p rest ih =>
    rw [Dict.insert]
    by_cases hk : p.1 = k
    · simp [hk, Dict.find, h]
    · rw [if_neg hk, Dict.find, Dict.find, ih]

theorem Dict.find_erase_ne {d : Dict α} {k k2 : String}
    (h : k ≠ k2) : Dict.find (Dict.erase d k) k2 = Dict.find d k2 := by
  induction d with
  | nil => simp [Dict.erase]
  | cons p rest ih =>
    rw [Dict.erase]
    by_cases hk : p.1 = k
    · rw [if_pos hk, ih, Dict.find, if_neg (by rw [hk]; exact h)]
    · rw [if_neg hk, Dict.find, Dict.find, ih]

theorem Dict.find_erase_self {d : Dict α} {k : String} :
    Dict.find (Dict.erase d k) k = none := by
  induction d with
  | nil => simp [Dict.erase, Dict.find]
  | cons p rest ih =>
    rw [Dict.erase]
    by_cases hk : p.1 = k
    · rw [if_pos hk]; exact ih
    · rw [if_neg hk, Dict.find, if_neg hk]; exact ih

theorem Dict.contains_erase_self {d : Dict α} {k : String} :
    Dict.contains (Dict.erase d k) k = false := by
  simp [Dict.contains, Dict.find_erase_self]

theorem Dict.contains_insert_ne {d : Dict α} {k k2 : String} {v : α}
    (h : k ≠ k2) :
    Dict.contains (Dict.insert d k v) k2 = Dict.contains d k2 := by
  simp [Dict.contains, Dict.find_insert_ne h]

theorem Dict.contains_erase_ne {d : Dict α} {k k2 : String}
    (h : k ≠ k2) :
    Dict.contains (Dict.erase d k) k2 = Dict.contains d k2 := by
  simp [Dict.contains, Dict.find_erase_ne h]

theorem Dict.contains_of_erase {d : Dict α} {k k2 : String}
    (h : Dict.contains (Dict.erase d k) k2 = true) :
    Dict.contains d k2 = true := by
  by_cases hk : k = k2
  · subst hk
    rw [Dict.contains_erase_self] at h
    exact absurd h (by simp)
  · rwa [Dict.contains_erase_ne hk] at h

theorem mem_keysNotIn {a : Dict α} {b : Dict β} {k : String} :
    k ∈ keysNotIn a b ↔ k ∈ Dict.keys a ∧ Dict.contains b k = false := by
  simp [keysNotIn, List.mem_filter]

theorem Dict.beqv_contains_false {a b : Dict α} [DecidableEq α] {k : String}
    (hbeq : Dict.beqv a b = true) (h : Dict.contains a k = false) :
    Dict.contains b k = false := by
  rw [Dict.beqv, Bool.and_eq_true] at hbeq
  by_contra hb
  have hb2 : Dict.contains b k = true := by
    cases hcb : Dict.contains b k with
    | false => exact absurd hcb hb
    | true => rfl
  rw [Dict.contains] at hb2
  cases hf : Dict.find b k with
  | none => rw [hf] at hb2; simp at hb2
  | some v =>
    have hmem := Dict.find_mem hf
    have := hbeq.2
    rw [List.all_eq_true] at this
    have := this (k, v) hmem
    simp only [decide_eq_true_eq] at this
    rw [Dict.contains, this] at h
    simp at h

/-! ## Lemmas about the debouncer loops -/

theorem clearLiveEntries_find {api : Dict TrackedModel} {id : String}
    (h : Dict.contains api id = false) :
    ∀ (l : List (String × Int)) (wl : Waitlist) (wu : Bool),
      Dict.find (clearLiveEntries api l wl wu).1 id = Dict.find wl id := by
  intro l
  induction l with
  | nil => intro wl wu; rfl
  | cons p rest ih =>
    intro wl wu
    obtain ⟨k, t⟩ := p
    rw [clearLiveEntries]
    by_cases hk : Dict.contains api k
    · rw [if_pos hk, ih]
      have hne : k ≠ id := fun he => by rw [he, h] at hk; exact Bool.noConfusion hk
      exact Dict.find_erase_ne hne
    · rw [if_neg hk, ih]

theorem deferRemovals_wl_some {now : Int} {previous : Dict TrackedModel}
    {id : String} {v : Int} :
    ∀ (l : List String) (eff : Dict TrackedModel) (wl : Waitlist) (wu : Bool),
      Dict.find wl id = some v →
      Dict.find (deferRemovals now previous l eff wl wu).2.1 id = some v := by
  intro l
  induction l with
  | nil => intro eff wl wu h; exact h
  | cons k rest ih =>
    intro eff wl wu h
    rw [deferRemovals]
    by_cases hk : Dict.contains wl k
    · rw [if_pos hk]
      exact ih _ _ _ h
    · rw [if_neg hk]
      have hne : k ≠ id := by
        intro he
        rw [he, Dict.contains, h] at hk
        exact hk rfl
      exact ih _ _ _ (by rw [Dict.find_insert_ne hne]; exact h)

theorem deferRemovals_ne {now : Int} {previous : Dict TrackedModel}
    {id : String} :
    ∀ (l : List String) (eff : Dict TrackedModel) (wl : Waitlist) (wu : Bool),
      (∀ k ∈ l, k ≠ id) →
      Dict.find (deferRemovals now previous l eff wl wu).1 id
          = Dict.find eff id ∧
        Dict.find (deferRemovals now previous l eff wl wu).2.1 id
          = Dict.find wl id := by
  intro l
  induction l with
  | nil => intro eff wl wu _; exact ⟨rfl, rfl⟩
  | cons k rest ih =>
    intro eff wl wu hl
    have hkne : k ≠ id := hl k (List.mem_cons_self _ _)
    have hrest : ∀ k2 ∈ rest, k2 ≠ id :=
      fun k2 hm => hl k2 (List.mem_cons_of_mem _ hm)
    rw [deferRemovals]
    by_cases hk : Dict.contains wl k
    · rw [if_pos hk]
      obtain ⟨h1, h2⟩ := ih _ _ _ hrest
      refine ⟨?_, h2⟩
      rw [h1]
      cases hfp : Dict.find previous k with
      | some m => simp only [hfp, Dict.find_insert_ne hkne]
      | none => simp only [hfp]
    · rw [if_neg hk]
      obtain ⟨h1, h2⟩ := ih _ _ _ hrest
      constructor
      · rw [h1]
        cases hfp : Dict.find previous k with
        | some m => simp only [hfp, Dict.find_insert_ne hkne]
        | none => simp only [hfp]
      · rw [h2, Dict.find_insert_ne hkne]

theorem dropRemoved_absent {id : String} :
    ∀ (l : List String) (wl : Waitlist) (wu : Bool),
      Dict.contains wl id = false →
      Dict.contains (dropRemovedFromWaitlist l wl wu).1 id = false := by
  intro l
  induction l with
  | nil => intro wl wu h; exact h
  | cons k rest ih =>
    intro wl wu h
    rw [dropRemovedFromWaitlist]
    by_cases hk : Dict.contains wl k
    · rw [if_pos hk]
      refine ih _ _ ?_
      cases hc : Dict.contains (Dict.erase wl k) id with
      | false => rfl
      | true => rw [Dict.contains_of_erase hc] at h; exact Bool.noConfusion h
    · rw [if_neg hk]
      exact ih _ _ h

theorem dropRemoved_mem {id : String} :
    ∀ (l : List String) (wl : Waitlist) (wu : Bool),
      id ∈ l →
      Dict.contains (dropRemovedFromWaitlist l wl wu).1 id = false := by
  intro l
  induction l with
  | nil => intro wl wu h; exact absurd h (List.not_mem_nil id)
  | cons k rest ih =>
    intro wl wu h
    rw [dropRemovedFromWaitlist]
    by_cases hki : k = id
    · subst hki
      by_cases hk : Dict.contains wl k
      · rw [if_pos hk]
        exact dropRemoved_absent _ _ _ Dict.contains_erase_self
      · rw [if_neg hk]
        exact dropRemoved_absent _ _ _ (by
          cases hc : Dict.contains wl k with
          | false => rfl
          | true => exact absurd hc hk)
    · have hmem : id ∈ rest := by
        rcases List.mem_cons.mp h with h1 | h1
        · exact absurd h1.symm hki
        · exact h1
      by_cases hk : Dict.contains wl k
      · rw [if_pos hk]; exact ih _ _ hmem
      · rw [if_neg hk]; exact ih _ _ hmem

theorem expire_wl_absent {ws now : Int} {api : Dict TrackedModel}
    {id : String} :
    ∀ (l : List (String × Int)) (wl : Waitlist) (eff : Dict TrackedModel)
      (wu : Bool),
      Dict.contains wl id = false →
      Dict.contains (expireEntries ws now api l wl eff wu).1 id = false := by
  intro l
  induction l with
  | nil => intro wl eff wu h; exact h
  | cons p rest ih =>
    intro wl eff wu h
    obtain ⟨k, t⟩ := p
    rw [expireEntries]
    by_cases hk : Dict.contains api k
    · rw [if_pos hk]; exact ih _ _ _ h
    · rw [if_neg hk]
      by_cases ht : ws ≤ now - t
      · rw [if_pos ht]
        refine ih _ _ _ ?_
        cases hc : Dict.contains (Dict.erase wl k) id with
        | false => rfl
        | true => rw [Dict.contains_of_erase hc] at h; exact Bool.noConfusion h
      · rw [if_neg ht]; exact ih _ _ _ h

theorem expire_eff_absent {ws now : Int} {api : Dict TrackedModel}
    {id : String} :
    ∀ (l : List (String × Int)) (wl : Waitlist) (eff : Dict TrackedModel)
      (wu : Bool),
      Dict.contains eff id = false →
      Dict.contains (expireEntries ws now api l wl eff wu).2.1 id = false := by
  intro l
  induction l with
  | nil => intro wl eff wu h; exact h
  | cons p rest ih =>
    intro wl eff wu h
    obtain ⟨k, t⟩ := p
    rw [expireEntries]
    by_cases hk : Dict.contains api k
    · rw [if_pos hk]; exact ih _ _ _ h
    · rw [if_neg hk]
      by_cases ht : ws ≤ now - t
      · rw [if_pos ht]
        refine ih _ _ _ ?_
        cases hc : Dict.contains (Dict.erase eff k) id with
        | false => rfl
        | true => rw [Dict.contains_of_erase hc] at h; exact Bool.noConfusion h
      · rw [if_neg ht]; exact ih _ _ _ h

theorem expire_of_mem {ws now : Int} {api : Dict TrackedModel}
    {id : String} {ts : Int} :
    ∀ (l : List (String × Int)) (wl : Waitlist) (eff : Dict TrackedModel)
      (wu : Bool),
      (id, ts) ∈ l →
      Dict.contains api id = false →
      ws ≤ now - ts →
      Dict.contains (expireEntries ws now api l wl eff wu).1 id = false ∧
        Dict.contains (expireEntries ws now api l wl eff wu).2.1 id = false := by
  intro l
  induction l with
  | nil => intro wl eff wu h; exact absurd h (List.not_mem_nil _)
  | cons p rest ih =>
    intro wl eff wu hmem hapi hexp
    obtain ⟨k, t⟩ := p
    by_cases hp : (k, t) = (id, ts)
    · injection hp with hk ht
      rw [expireEntries, hk, if_neg (by rw [hapi]; exact Bool.noConfusion),
        ht, if_pos hexp]
      exact ⟨expire_wl_absent _ _ _ _ Dict.contains_erase_self,
        expire_eff_absent _ _ _ _ Dict.contains_erase_self⟩
    · have hrest : (id, ts) ∈ rest := by
        rcases List.mem_cons.mp hmem with h1 | h1
        · exact absurd h1.symm hp
        · exact h1
      rw [expireEntries]
      by_cases hk : Dict.contains api k
      · rw [if_pos hk]; exact ih _ _ _ hrest hapi hexp
      · rw [if_neg hk]
        by_cases ht : ws ≤ now - t
        · rw [if_pos ht]; exact ih _ _ _ hrest hapi hexp
        · rw [if_neg ht]; exact ih _ _ _ hrest hapi hexp

theorem expire_find_api {ws now : Int} {api : Dict TrackedModel}
    {id : String} (h : Dict.contains api id = true) :
    ∀ (l : List (String × Int)) (wl : Waitlist) (eff : Dict TrackedModel)
      (wu : Bool),
      Dict.find (expireEntries ws now api l wl eff wu).2.1 id
        = Dict.find eff id := by
  intro l
  induction l with
  | nil => intro wl eff wu; rfl
  | cons p rest ih =>
    intro wl eff wu
    obtain ⟨k, t⟩ := p
    rw [expireEntries]
    by_cases hk : Dict.contains api k
    · rw [if_pos hk]; exact ih _ _ _
    · rw [if_neg hk]
      have hne : k ≠ id := fun he => by rw [he, h] at hk; exact hk rfl
      by_cases ht : ws ≤ now - t
      · rw [if_pos ht, ih, Dict.find_erase_ne hne]
      · rw [if_neg ht]; exact ih _ _ _

/-! ## Lemmas about the assembled debouncer -/

theorem Dict.contains_eq_false_iff {d : Dict α} {k : String} :
    Dict.contains d k = false ↔ Dict.find d k = none := by
  cases h : Dict.find d k with
  | none => simp [Dict.contains, h]
  | some v => simp [Dict.contains, h]

theorem Dict.exists_find_of_contains {d : Dict α} {k : String}
    (h : Dict.contains d k = true) : ∃ v, Dict.find d k = some v := by
  cases hf : Dict.find d k with
  | none => rw [Dict.contains, hf] at h; exact absurd h (by simp)
  | some v => exact ⟨v, rfl⟩

theorem storeWaitlist_absent {existing : Option Waitlist} {wl3 : Waitlist}
    {wu : Bool} {id : String} (h : Dict.contains wl3 id = false) :
    waitlistContains (storeWaitlist existing wl3 wu).1 id = false := by
  rw [storeWaitlist.eq_def]
  by_cases he : wl3.isEmpty
  · rw [if_neg (by simp [he])]
    cases existing with
    | none => rfl
    | some e =>
      dsimp only
      by_cases hee : e.isEmpty
      · rw [if_neg (by simp [hee])]
        have : e = [] := List.isEmpty_iff.mp hee
        subst this
        rfl
      · rw [if_pos (by simp [hee])]
        rfl
  · rw [if_pos (by simp [he])]
    by_cases hb : Dict.beqv wl3 (existing.getD [])
    · rw [if_neg (by simp [hb])]
      have habs := Dict.beqv_contains_false hb h
      cases existing with
      | none => rfl
      | some e => exact habs
    · rw [if_pos (by simp [hb])]
      exact h

theorem debounceCore_raw_find {ws now : Int} {existing : Option Waitlist}
    {previous api : Dict TrackedModel} {id : String}
    (h : Dict.contains api id = true) :
    Dict.find (debounceCore ws now existing previous api).2.1 id
      = Dict.find api id := by
  simp only [debounceCore]
  rw [expire_find_api h]
  by_cases hc : !(keysNotIn previous api).isEmpty
      && (keysNotIn api previous).isEmpty
  · rw [if_pos hc]
    refine (deferRemovals_ne _ _ _ _ (fun k hk he => ?_)).1
    subst he
    rw [(mem_keysNotIn.mp hk).2] at h
    exact Bool.noConfusion h
  · rw [if_neg hc]

theorem debounceCore_expired {ws now : Int} {existing : Option Waitlist}
    {previous api : Dict TrackedModel} {id : String} {ts : Int}
    (hprev : Dict.contains previous id = true)
    (hapi : Dict.contains api id = false)
    (hwl : Dict.find (existing.getD []) id = some ts)
    (hexp : ws ≤ now - ts) :
    Dict.contains (debounceCore ws now existing previous api).1 id = false ∧
      Dict.contains (debounceCore ws now existing previous api).2.1 id
        = false := by
  simp only [debounceCore]
  have hwl1 : Dict.find
      (clearLiveEntries api (existing.getD []) (existing.getD []) false).1 id
      = some ts := by
    rw [clearLiveEntries_find hapi]
    exact hwl
  have hmemprev : id ∈ Dict.keys previous := by
    obtain ⟨v, hv⟩ := Dict.exists_find_of_contains hprev
    exact Dict.mem_keys_of_find hv
  by_cases hc : !(keysNotIn previous api).isEmpty
      && (keysNotIn api previous).isEmpty
  · rw [if_pos hc]
    exact expire_of_mem _ _ _ _
      (Dict.find_mem (deferRemovals_wl_some _ _ _ _ hwl1)) hapi hexp
  · rw [if_neg hc]
    have hidrem : id ∈ keysNotIn previous api :=
      mem_keysNotIn.mpr ⟨hmemprev, hapi⟩
    exact ⟨expire_wl_absent _ _ _ _ (dropRemoved_mem _ _ _ hidrem),
      expire_eff_absent _ _ _ _ hapi⟩

theorem debounceCore_absent {ws now : Int} {existing : Option Waitlist}
    {previous api : Dict TrackedModel} {id : String}
    (hprev : Dict.contains previous id = false)
    (hapi : Dict.contains api id = false)
    (hwl : Dict.contains (existing.getD []) id = false) :
    Dict.contains (debounceCore ws now existing previous api).1 id = false ∧
      Dict.contains (debounceCore ws now existing previous api).2.1 id
        = false := by
  simp only [debounceCore]
  have hwl1 : Dict.contains
      (clearLiveEntries api (existing.getD []) (existing.getD []) false).1 id
      = false := by
    rw [Dict.contains, clearLiveEntries_find hapi]
    rw [Dict.contains] at hwl
    exact hwl
  by_cases hc : !(keysNotIn previous api).isEmpty
      && (keysNotIn api previous).isEmpty
  · rw [if_pos hc]
    have hne : ∀ k ∈ keysNotIn previous api, k ≠ id := by
      intro k hk he
      subst he
      exact Dict.not_mem_keys hprev (mem_keysNotIn.mp hk).1
    obtain ⟨heff, hw⟩ := @deferRemovals_ne now previous id
      (keysNotIn previous api) api
      (clearLiveEntries api (existing.getD []) (existing.getD []) false).1
      (clearLiveEntries api (existing.getD []) (existing.getD []) false).2 hne
    constructor
    · refine expire_wl_absent _ _ _ _ ?_
      rw [Dict.contains, hw]
      rw [Dict.contains] at hwl1
      exact hwl1
    · refine expire_eff_absent _ _ _ _ ?_
      rw [Dict.contains, heff]
      rw [Dict.contains] at hapi
      exact hapi
  · rw [if_neg hc]
    exact ⟨expire_wl_absent _ _ _ _ (dropRemoved_absent _ _ _ hwl1),
      expire_eff_absent _ _ _ _ hapi⟩

theorem debounceCore_trusted_removal {ws now : Int}
    {existing : Option Waitlist} {previous api : Dict TrackedModel}
    {id : String}
    (hprev : Dict.contains previous id = true)
    (hapi : Dict.contains api id = false)
    (hadd : (keysNotIn api previous).isEmpty = false) :
    Dict.contains (debounceCore ws now existing previous api).1 id = false ∧
      Dict.contains (debounceCore ws now existing previous api).2.1 id
        = false := by
  simp only [debounceCore]
  rw [if_neg (by simp [hadd])]
  have hmemprev : id ∈ Dict.keys previous := by
    obtain ⟨v, hv⟩ := Dict.exists_find_of_contains hprev
    exact Dict.mem_keys_of_find hv
  have hidrem : id ∈ keysNotIn previous api :=
    mem_keysNotIn.mpr ⟨hmemprev, hapi⟩
  exact ⟨expire_wl_absent _ _ _ _ (dropRemoved_mem _ _ _ hidrem),
    expire_eff_absent _ _ _ _ hapi⟩

/-! ## Concrete fixtures used by witnesses and counterexamples -/

/-- Fixture record. -/
def mAlpha : TrackedModel := { name := "Alpha" }

/-- Fixture record. -/
def mBeta : TrackedModel := { name := "Beta" }

/-- Fixture record. -/
def mGamma : TrackedModel := { name := "Gamma" }

/-! ## Claim C4 -/

/-- Claim C4: when `grace_period_seconds <= 0`, the debouncer returns an
effective snapshot equal to the raw snapshot, the added/removed sets are the
raw key-set differences against the previous snapshot, and any existing
waitlist for the source is cleared. -/
theorem c4_grace_disabled (ws now : Int) (existing : Option Waitlist)
    (previous api : Dict TrackedModel) (h : ws ≤ 0) :
    (applyRemovalWaitlist ws now existing previous api).effective = api ∧
      (∀ id, id ∈ (applyRemovalWaitlist ws now existing previous api).addedIds
        ↔ id ∈ Dict.keys api ∧ Dict.contains previous id = false) ∧
      (∀ id,
        id ∈ (applyRemovalWaitlist ws now existing previous api).removedIds
        ↔ id ∈ Dict.keys previous ∧ Dict.contains api id = false) ∧
      (applyRemovalWaitlist ws now existing previous api).newWaitlist
        = none := by
  simp only [applyRemovalWaitlist]
  rw [if_pos h]
  exact ⟨rfl, fun id => mem_keysNotIn, fun id => mem_keysNotIn, rfl⟩

/-- Witness for C4 at a concrete input: grace period `0`, a stale waitlist
entry, one previously known record and an empty raw snapshot. -/
theorem c4_grace_disabled_witness :
    (applyRemovalWaitlist 0 7 (some [("a", 5)]) [("a", mAlpha)] []).effective
        = [] ∧
      ("a" ∈ (applyRemovalWaitlist 0 7 (some [("a", 5)])
          [("a", mAlpha)] []).removedIds
        ↔ "a" ∈ Dict.keys [("a", mAlpha)] ∧
            Dict.contains ([] : Dict TrackedModel) "a" = false) ∧
      (applyRemovalWaitlist 0 7 (some [("a", 5)]) [("a", mAlpha)] []
        ).newWaitlist = none := by
  obtain ⟨h1, _, h3, h4⟩ :=
    c4_grace_disabled 0 7 (some [("a", 5)]) [("a", mAlpha)] [] (by decide)
  exact ⟨h1, h3 "a", h4⟩

/-! ## Claim C10 -/

/-- Claim C10: the effective snapshot returned by the removal debouncer
contains every identifier present in the raw snapshot, mapped to its
raw-snapshot record; debouncing never suppresses or alters an identifier
the raw fetch reported as present. -/
theorem c10_raw_snapshot_preserved (ws now : Int)
    (existing : Option Waitlist) (previous api : Dict TrackedModel)
    (id : String) (h : Dict.contains api id = true) :
    Dict.find (applyRemovalWaitlist ws now existing previous api).effective id
      = Dict.find api id := by
  simp only [applyRemovalWaitlist]
  by_cases hws : ws ≤ 0
  · rw [if_pos hws]
  · rw [if_neg hws]
    exact debounceCore_raw_find h

/-- Witness for C10 at a concrete input: a raw identifier that also sits on
the waitlist and in the previous snapshot keeps its raw record. -/
theorem c10_raw_snapshot_preserved_witness :
    Dict.find (applyRemovalWaitlist 60 100 (some [("a", 10)])
        [("a", mBeta)] [("a", mAlpha)]).effective "a"
      = Dict.find [("a", mAlpha)] "a" :=
  c10_raw_snapshot_preserved 60 100 (some [("a", 10)]) [("a", mBeta)]
    [("a", mAlpha)] "a" (by decide)

/-! ## Claim C7 -/

/-- Claim C7: an identifier on the waitlist that has been absent from raw
snapshots for at least the grace period is reported removed by the cycle
observing the expiry and purged from both the waitlist and the effective
snapshot (first conjunct); and a cycle starting with the identifier absent
from registry, waitlist and raw snapshot reports no removal for it and
leaves it absent from registry and waitlist, so no later cycle can emit a
second "removed" event while it stays absent (second conjunct). -/
theorem c7_removed_exactly_once :
    (∀ (ws now : Int) (existing : Option Waitlist)
        (previous api : Dict TrackedModel) (id : String) (ts : Int),
      0 < ws →
      Dict.contains previous id = true →
      Dict.contains api id = false →
      Dict.find (existing.getD []) id = some ts →
      ws ≤ now - ts →
      id ∈ (applyRemovalWaitlist ws now existing previous api).removedIds ∧
        Dict.contains
          (applyRemovalWaitlist ws now existing previous api).effective id
          = false ∧
        (applyRemovalWaitlist ws now existing previous api).onWaitlist id
          = false) ∧
    (∀ (ws now : Int) (existing : Option Waitlist)
        (previous api : Dict TrackedModel) (id : String),
      Dict.contains previous id = false →
      Dict.contains api id = false →
      waitlistContains existing id = false →
      id ∉ (applyRemovalWaitlist ws now existing previous api).removedIds ∧
        Dict.contains
          (applyRemovalWaitlist ws now existing previous api).effective id
          = false ∧
        (applyRemovalWaitlist ws now existing previous api).onWaitlist id
          = false) := by
  constructor
  · intro ws now existing previous api id ts hws hprev hapi hwl hexp
    simp only [applyRemovalWaitlist]
    rw [if_neg (by omega)]
    obtain ⟨hwl3, heff⟩ := debounceCore_expired hprev hapi hwl hexp
    have hmemprev : id ∈ Dict.keys previous := by
      obtain ⟨v, hv⟩ := Dict.exists_find_of_contains hprev
      exact Dict.mem_keys_of_find hv
    exact ⟨mem_keysNotIn.mpr ⟨hmemprev, heff⟩, heff,
      storeWaitlist_absent hwl3⟩
  · intro ws now existing previous api id hprev hapi hwl
    have hwl0 : Dict.contains (existing.getD []) id = false := by
      cases existing with
      | none => rfl
      | some e => exact hwl
    simp only [applyRemovalWaitlist]
    by_cases hws : ws ≤ 0
    · rw [if_pos hws]
      refine ⟨?_, hapi, ?_⟩
      · intro hmem
        exact Dict.not_mem_keys hprev (mem_keysNotIn.mp hmem).1
      · rfl
    · rw [if_neg hws]
      obtain ⟨hwl3, heff⟩ := debounceCore_absent hprev hapi hwl0
      refine ⟨?_, heff, storeWaitlist_absent hwl3⟩
      intro hmem
      exact Dict.not_mem_keys hprev (mem_keysNotIn.mp hmem).1

/-- Witness for C7 at concrete inputs: `"b"` waitlisted at time `100` with
grace period `60` expires at time `200` (first conjunct); once gone it stays
gone (second conjunct). -/
theorem c7_removed_exactly_once_witness :
    ("b" ∈ (applyRemovalWaitlist 60 200 (some [("b", 100)])
        [("b", mBeta)] []).removedIds ∧
      Dict.contains (applyRemovalWaitlist 60 200 (some [("b", 100)])
        [("b", mBeta)] []).effective "b" = false ∧
      (applyRemovalWaitlist 60 200 (some [("b", 100)])
        [("b", mBeta)] []).onWaitlist "b" = false) ∧
    ("b" ∉ (applyRemovalWaitlist 60 300 none
        ([] : Dict TrackedModel) []).removedIds ∧
      Dict.contains (applyRemovalWaitlist 60 300 none
        ([] : Dict TrackedModel) []).effective "b" = false ∧
      (applyRemovalWaitlist 60 300 none
        ([] : Dict TrackedModel) []).onWaitlist "b" = false) :=
  ⟨c7_removed_exactly_once.1 60 200 (some [("b", 100)]) [("b", mBeta)] []
      "b" 100 (by decide) (by decide) (by decide) (by decide) (by decide),
    c7_removed_exactly_once.2 60 300 none [] [] "b"
      (by decide) (by decide) (by decide)⟩

/-! ## Claim C1 -/

/-- Counterexample to claim C1 at a concrete input: previous snapshot
`{a, b}`, raw snapshot `{a, c}` (one addition `c`, one removal `b`), grace
period `60 > 0`, empty waitlist.  `b` is reported removed in that same
cycle, is not kept visible in the effective snapshot, and is not placed on
the waitlist — contradicting "each removed identifier is still deferred via
the per-identifier waitlist". -/
theorem c1_counterexample :
    keysNotIn [("a", mAlpha), ("c", mGamma)] [("a", mAlpha), ("b", mBeta)]
        = ["c"] ∧
      (applyRemovalWaitlist 60 100 none [("a", mAlpha), ("b", mBeta)]
        [("a", mAlpha), ("c", mGamma)]).removedIds = ["b"] ∧
      Dict.contains (applyRemovalWaitlist 60 100 none
        [("a", mAlpha), ("b", mBeta)]
        [("a", mAlpha), ("c", mGamma)]).effective "b" = false ∧
      (applyRemovalWaitlist 60 100 none [("a", mAlpha), ("b", mBeta)]
        [("a", mAlpha), ("c", mGamma)]).onWaitlist "b" = false := by
  decide

/-- Claim C1 as amended: in a cycle whose raw snapshot has at least one
added identifier, each removed identifier is reported as removed
immediately in that same cycle — dropped from the effective snapshot and
from the waitlist — rather than deferred; deferral applies only to cycles
with zero additions. -/
theorem c1_amended (ws now : Int) (existing : Option Waitlist)
    (previous api : Dict TrackedModel) (id : String)
    (hws : 0 < ws)
    (hadd : (keysNotIn api previous).isEmpty = false)
    (hprev : Dict.contains previous id = true)
    (hapi : Dict.contains api id = false) :
    id ∈ (applyRemovalWaitlist ws now existing previous api).removedIds ∧
      Dict.contains
        (applyRemovalWaitlist ws now existing previous api).effective id
        = false ∧
      (applyRemovalWaitlist ws now existing previous api).onWaitlist id
        = false := by
  simp only [applyRemovalWaitlist]
  rw [if_neg (by omega)]
  obtain ⟨hwl3, heff⟩ := debounceCore_trusted_removal hprev hapi hadd
  have hmemprev : id ∈ Dict.keys previous := by
    obtain ⟨v, hv⟩ := Dict.exists_find_of_contains hprev
    exact Dict.mem_keys_of_find hv
  exact ⟨mem_keysNotIn.mpr ⟨hmemprev, heff⟩, heff, storeWaitlist_absent hwl3⟩

/-- Witness for the amended C1 at the concrete counterexample input. -/
theorem c1_amended_witness :
    "b" ∈ (applyRemovalWaitlist 60 100 none [("a", mAlpha), ("b", mBeta)]
        [("a", mAlpha), ("c", mGamma)]).removedIds ∧
      Dict.contains (applyRemovalWaitlist 60 100 none
        [("a", mAlpha), ("b", mBeta)]
        [("a", mAlpha), ("c", mGamma)]).effective "b" = false ∧
      (applyRemovalWaitlist 60 100 none [("a", mAlpha), ("b", mBeta)]
        [("a", mAlpha), ("c", mGamma)]).onWaitlist "b" = false :=
  c1_amended 60 100 none [("a", mAlpha), ("b", mBeta)]
    [("a", mAlpha), ("c", mGamma)] "b" (by decide) (by decide) (by decide)
    (by decide)

/-! ## Claim C3 -/

/-- Claim C3: snapshot normalization copies the `tag` from the previous
record with the same identifier and never takes it from the adapter entry
(a fresh identifier gets no tag); `name` (and, analogously, capabilities)
come from the fresh entry, so an unrelated name/capability change leaves
the tag intact. -/
theorem c3_tag_survives (e : ModelEntry) (m : TrackedModel) :
    (snapshotModel e (some m)).tag = m.tag ∧
      (snapshotModel e none).tag = none ∧
      (snapshotModel e (some m)).name = e.name :=
  ⟨rfl, rfl, rfl⟩

/-! ## Claim C2 -/

/-- Fixture: a record with a populated input capability list. -/
def mCapsBefore : TrackedModel := { name := "m", inputCapabilities := some ["text"] }

/-- Fixture: the same record with its input capability list now absent. -/
def mCapsAfterNone : TrackedModel := { name := "m", inputCapabilities := none }

/-- Fixture: the same record with its input capability list now empty. -/
def mCapsAfterEmpty : TrackedModel := { name := "m", inputCapabilities := some [] }

/-- Counterexample to claim C2 at a concrete input: a record whose
`input_capabilities` goes from `["text"]` to `None` produces exactly the
same diff outcome as one going from `["text"]` to `[]` — the diff coalesces
`None` with the empty list (`set(previous or [])`), so the two states are
not distinguishable through the diff. -/
theorem c2_counterexample :
    diffCapabilities (some ["text"]) none
        = diffCapabilities (some ["text"]) (some []) ∧
      diffCapabilities (some ["text"]) none = ([], ["text"]) ∧
      (capabilityChanges "m" mCapsBefore mCapsAfterNone).inputAdded
        = (capabilityChanges "m" mCapsBefore mCapsAfterEmpty).inputAdded ∧
      (capabilityChanges "m" mCapsBefore mCapsAfterNone).inputRemoved
        = (capabilityChanges "m" mCapsBefore mCapsAfterEmpty).inputRemoved ∧
      (capabilityChanges "m" mCapsBefore mCapsAfterNone).hasChanges
        = (capabilityChanges "m" mCapsBefore mCapsAfterEmpty).hasChanges := by
  decide

/-- Claim C2 as amended: the capability diff coalesces an absent (`None`)
capability list with the empty list — it depends only on `previous or []`
and `current or []` — so a change from a populated list to `None` and a
change from that list to `[]` yield identical diff outcomes (the populated
elements reported as removed). -/
theorem c2_amended (p c : Option (List String)) :
    diffCapabilities p c
        = diffCapabilities (some (p.getD [])) (some (c.getD [])) ∧
      diffCapabilities p none = diffCapabilities p (some []) :=
  ⟨rfl, rfl⟩

/-! ## Claim C8 -/

/-- Claim C8: a cycle whose fetch raises `ArenaFetchError` returns without
mutating state, persisting or notifying; an empty-but-successful fetch
instead proceeds through the full cycle as a legitimate zero-entry raw
snapshot. -/
theorem c8_fetch_error_aborts (ws now : Int) (st : ArenaState) :
    ((pollArena ws now st (Except.error ())).state = st ∧
      (pollArena ws now st (Except.error ())).persisted = false ∧
      (pollArena ws now st (Except.error ())).notifiedChats = []) ∧
    pollArena ws now st (Except.ok []) = pollCycle ws now st [] :=
  ⟨⟨rfl, rfl, rfl⟩, rfl⟩

/-! ## Projection lemmas for the poll cycle -/

theorem pollCycle_addedIds (ws now : Int) (st : ArenaState)
    (models : List ModelEntry) :
    (pollCycle ws now st models).addedIds
      = (applyRemovalWaitlist ws now st.removalWaitlist st.models
          (buildApiSnapshots st.models models)).addedIds := by
  simp only [pollCycle]
  split <;> rfl

theorem pollCycle_removedIds (ws now : Int) (st : ArenaState)
    (models : List ModelEntry) :
    (pollCycle ws now st models).removedIds
      = (applyRemovalWaitlist ws now st.removalWaitlist st.models
          (buildApiSnapshots st.models models)).removedIds := by
  simp only [pollCycle]
  split <;> rfl

theorem pollCycle_capabilityUpdates (ws now : Int) (st : ArenaState)
    (models : List ModelEntry) :
    (pollCycle ws now st models).capabilityUpdates
      = arenaCapabilityUpdates st.models
          (applyRemovalWaitlist ws now st.removalWaitlist st.models
            (buildApiSnapshots st.models models)).effective := by
  simp only [pollCycle]
  split <;> rfl

theorem pollCycle_nameUpdates (ws now : Int) (st : ArenaState)
    (models : List ModelEntry) :
    (pollCycle ws now st models).nameUpdates
      = arenaNameUpdates st.models
          (applyRemovalWaitlist ws now st.removalWaitlist st.models
            (buildApiSnapshots st.models models)).effective := by
  simp only [pollCycle]
  split <;> rfl

theorem pollCycle_waitlistUpdated (ws now : Int) (st : ArenaState)
    (models : List ModelEntry) :
    (pollCycle ws now st models).waitlistUpdated
      = (applyRemovalWaitlist ws now st.removalWaitlist st.models
          (buildApiSnapshots st.models models)).waitlistUpdated := by
  simp only [pollCycle]
  split <;> rfl

theorem applyRemovalWaitlist_addedIds_eq (ws now : Int)
    (existing : Option Waitlist) (previous api : Dict TrackedModel) :
    (applyRemovalWaitlist ws now existing previous api).addedIds
      = keysNotIn (applyRemovalWaitlist ws now existing previous api).effective
          previous := by
  simp only [applyRemovalWaitlist]
  split <;> rfl

theorem applyRemovalWaitlist_removedIds_eq (ws now : Int)
    (existing : Option Waitlist) (previous api : Dict TrackedModel) :
    (applyRemovalWaitlist ws now existing previous api).removedIds
      = keysNotIn previous
          (applyRemovalWaitlist ws now existing previous api).effective := by
  simp only [applyRemovalWaitlist]
  split <;> rfl

theorem insertSorted_ne_nil (le : α → α → Bool) (x : α) (l : List α) :
    insertSorted le x l ≠ [] := by
  cases l with
  | nil => simp [insertSorted]
  | cons y rest =>
    rw [insertSorted]
    by_cases h : le y x
    · rw [if_pos h]; simp
    · rw [if_neg h]; simp

theorem sortBy_isEmpty (le : α → α → Bool) (l : List α) :
    (sortBy le l).isEmpty = l.isEmpty := by
  cases l with
  | nil => rfl
  | cons x rest =>
    rw [sortBy]
    cases hi : (insertSorted le x (sortBy le rest)).isEmpty with
    | false => rfl
    | true =>
      exact absurd (List.isEmpty_iff.mp hi) (insertSorted_ne_nil le x _)

theorem filterMap_isEmpty_of_isSome {β : Type} {f : String → Option β}
    {l : List String} (h : ∀ k ∈ l, (f k).isSome = true) :
    (l.filterMap f).isEmpty = l.isEmpty := by
  cases l with
  | nil => rfl
  | cons k rest =>
    have hs := h k (List.mem_cons_self _ _)
    rw [List.filterMap_cons]
    cases hf : f k with
    | none => rw [hf] at hs; exact absurd hs (by simp)
    | some v => rfl

theorem bool_or_eq_not_and (a b c d w : Bool) :
    (!a || !b || !c || !d || w) = !(a && b && c && d && !w) := by
  cases a <;> cases b <;> cases c <;> cases d <;> cases w <;> rfl

/-! ## Claim C6 -/

/-- Claim C6: a reconciliation cycle in which all change sets (added,
removed, renamed, capability-changed) are empty and the waitlist was not
mutated performs no persistence and sends no notification, and leaves the
stored state exactly as it was. -/
theorem c6_no_change_is_noop (ws now : Int) (st : ArenaState)
    (models : List ModelEntry)
    (h1 : (pollCycle ws now st models).addedIds = [])
    (h2 : (pollCycle ws now st models).removedIds = [])
    (h3 : (pollCycle ws now st models).capabilityUpdates = [])
    (h4 : (pollCycle ws now st models).nameUpdates = [])
    (h5 : (pollCycle ws now st models).waitlistUpdated = false) :
    (pollCycle ws now st models).state = st ∧
      (pollCycle ws now st models).persisted = false ∧
      (pollCycle ws now st models).notifiedChats = [] := by
  rw [pollCycle_addedIds] at h1
  rw [pollCycle_removedIds] at h2
  rw [pollCycle_capabilityUpdates] at h3
  rw [pollCycle_nameUpdates] at h4
  rw [pollCycle_waitlistUpdated] at h5
  simp only [pollCycle]
  split
  next hc => exact ⟨rfl, rfl, rfl⟩
  next hc =>
    exfalso
    apply hc
    rw [h1, h2, h3, h4, h5]
    rfl

/-- Fixture: a fetch entry with no capability payload. -/
def entryAlpha : ModelEntry :=
  { identifier := "a", name := "Alpha", raw := Json.obj [] }

/-- Fixture: a state with one tracked model, no waitlist and one chat. -/
def stAlpha : ArenaState :=
  { models := [("a", mAlpha)], removalWaitlist := none, chats := [1] }

/-- Witness for C6 at a concrete input: a cycle whose fetch returns exactly
the models already stored changes nothing and is a no-op. -/
theorem c6_no_change_is_noop_witness :
    ((pollCycle 60 100 stAlpha [entryAlpha]).addedIds = [] ∧
      (pollCycle 60 100 stAlpha [entryAlpha]).removedIds = [] ∧
      (pollCycle 60 100 stAlpha [entryAlpha]).capabilityUpdates = [] ∧
      (pollCycle 60 100 stAlpha [entryAlpha]).nameUpdates = [] ∧
      (pollCycle 60 100 stAlpha [entryAlpha]).waitlistUpdated = false) ∧
    ((pollCycle 60 100 stAlpha [entryAlpha]).state = stAlpha ∧
      (pollCycle 60 100 stAlpha [entryAlpha]).persisted = false ∧
      (pollCycle 60 100 stAlpha [entryAlpha]).notifiedChats = []) :=
  ⟨⟨by decide, by decide, by decide, by decide, by decide⟩,
    c6_no_change_is_noop 60 100 stAlpha [entryAlpha]
      (by decide) (by decide) (by decide) (by decide) (by decide)⟩

/-! ## Claim C5 -/

/-- Counterexample to claim C5 at a concrete input: a cycle whose only
effect is a waitlist mutation (the sole stored model disappears from the
raw snapshot with no additions, so it is deferred) persists the new state
but notifies nobody, even though a subscriber chat is present —
contradicting "still results in a notification to every subscriber". -/
theorem c5_counterexample :
    stAlpha.chats = [1] ∧
      (pollCycle 60 100 stAlpha []).persisted = true ∧
      (pollCycle 60 100 stAlpha []).waitlistUpdated = true ∧
      (pollCycle 60 100 stAlpha []).addedIds = [] ∧
      (pollCycle 60 100 stAlpha []).removedIds = [] ∧
      (pollCycle 60 100 stAlpha []).capabilityUpdates = [] ∧
      (pollCycle 60 100 stAlpha []).nameUpdates = [] ∧
      (pollCycle 60 100 stAlpha []).notifiedChats = [] := by
  decide

/-- Claim C5 as amended: a cycle persists exactly when some change set is
non-empty or the waitlist was mutated, but it notifies the subscribers only
when at least one of the added/removed/capability-changed/renamed sets is
non-empty — a cycle whose only effect is a waitlist mutation persists and
does not notify. -/
theorem c5_persist_notify_conditions (ws now : Int) (st : ArenaState)
    (models : List ModelEntry) :
    (pollCycle ws now st models).persisted
        = (!(pollCycle ws now st models).addedIds.isEmpty
            || !(pollCycle ws now st models).removedIds.isEmpty
            || !(pollCycle ws now st models).capabilityUpdates.isEmpty
            || !(pollCycle ws now st models).nameUpdates.isEmpty
            || (pollCycle ws now st models).waitlistUpdated) ∧
      (pollCycle ws now st models).notifiedChats
        = (if (!(pollCycle ws now st models).addedIds.isEmpty
              || !(pollCycle ws now st models).removedIds.isEmpty
              || !(pollCycle ws now st models).capabilityUpdates.isEmpty
              || !(pollCycle ws now st models).nameUpdates.isEmpty) = true
            then st.chats else []) := by
  rw [pollCycle_addedIds, pollCycle_removedIds, pollCycle_capabilityUpdates,
    pollCycle_nameUpdates, pollCycle_waitlistUpdated]
  constructor
  · simp only [pollCycle]
    split
    next hc =>
      simp only [Bool.and_eq_true, Bool.not_eq_true'] at hc
      obtain ⟨⟨⟨⟨e1, e2⟩, e3⟩, e4⟩, e5⟩ := hc
      simp [e1, e2, e3, e4, e5]
    next hc =>
      rw [Bool.not_eq_true] at hc
      simp [bool_or_eq_not_and, hc]
  · simp only [pollCycle]
    split
    next hc =>
      simp only [Bool.and_eq_true, Bool.not_eq_true'] at hc
      obtain ⟨⟨⟨⟨e1, e2⟩, e3⟩, e4⟩, e5⟩ := hc
      simp [e1, e2, e3, e4]
    next hc =>
      have ha : ∀ k ∈ (applyRemovalWaitlist ws now st.removalWaitlist
          st.models (buildApiSnapshots st.models models)).addedIds,
          (Dict.find (applyRemovalWaitlist ws now st.removalWaitlist
            st.models (buildApiSnapshots st.models models)).effective
            k).isSome = true := by
        intro k hk
        rw [applyRemovalWaitlist_addedIds_eq] at hk
        exact Dict.contains_of_mem_keys (mem_keysNotIn.mp hk).1
      have hb : ∀ k ∈ (applyRemovalWaitlist ws now st.removalWaitlist
          st.models (buildApiSnapshots st.models models)).removedIds,
          ((Dict.find st.models k).map (fun m => (k, m))).isSome = true := by
        intro k hk
        rw [applyRemovalWaitlist_removedIds_eq] at hk
        obtain ⟨v, hv⟩ := Dict.exists_find_of_contains
          (Dict.contains_of_mem_keys (mem_keysNotIn.mp hk).1)
        rw [hv]
        rfl
      rw [sortBy_isEmpty, sortBy_isEmpty, filterMap_isEmpty_of_isSome ha,
        filterMap_isEmpty_of_isSome hb]

/-! ## Claim C9 -/

/-- Counterexample to claim C9 at a concrete input: the persisted document
`[]` is well-formed JSON, yet `load()` does not return a valid state — the
`from_json` call sits outside the `try` block and raises an uncaught
`AttributeError` on any non-object document (`data.get` on a non-dict). -/
theorem c9_counterexample :
    load (some (Except.ok (Json.arr []))) = Except.error "AttributeError" :=
  rfl

/-- Claim C9 as amended: `load()` returns an empty valid state when no
prior document exists or when reading/JSON-decoding it fails, and on a
well-formed JSON *object* unknown fields are ignored and missing fields
default to empty; but a well-formed JSON document that is not an object
(or one with ill-typed field contents, e.g. non-numeric chat entries)
raises an uncaught error out of `load()`. -/
theorem c9_load_defaults :
    (load none = Except.ok WatcherState.empty) ∧
      (∀ e : String,
        load (some (Except.error e)) = Except.ok WatcherState.empty) ∧
      (∀ fields : List (String × Json),
        Dict.find fields "known_models" = none →
        Dict.find fields "google_models" = none →
        Dict.find fields "chats" = none →
        load (some (Except.ok (Json.obj fields)))
          = Except.ok WatcherState.empty) := by
  refine ⟨rfl, fun e => rfl, fun fields h1 h2 h3 => ?_⟩
  simp only [load, WatcherState.fromJson, h1, h2, h3]
  rfl

/-- Witness for the amended C9 at a concrete input: a document holding only
an unknown field loads as the empty state, as do a missing and an
unreadable document. -/
theorem c9_load_defaults_witness :
    load (some (Except.ok (Json.obj [("subscribers", Json.num 3)])))
        = Except.ok WatcherState.empty ∧
      load (some (Except.error "JSONDecodeError"))
        = Except.ok WatcherState.empty ∧
      load none = Except.ok WatcherState.empty :=
  ⟨c9_load_defaults.2.2 [("subscribers", Json.num 3)] rfl rfl rfl,
    c9_load_defaults.2.1 "JSONDecodeError",
    c9_load_defaults.1⟩

end ArenaWatcher
